import Mathlib

/-!
Verification development for the I2T2 DICOM ingestion module (`I2T2/io.py`).

Modelling conventions (shallow embedding):
* A decoded DICOM slice (the result of `pydicom.dcmread`) is a `Dcm`: an
  association list from tag names to tag values, plus the decoded 2-D pixel
  buffer.  `hasattr(dcm, tag)` and `dcm[tag]` are both presence in that map.
* Python floats are modelled as exact rationals `ℚ`; pixel samples as `ℤ`.
* Fallible Python code (raised exceptions) is modelled with `Except Err`;
  the `Err` constructors carry the design document's error names for the
  corresponding `raise` / crash sites in the source.
* The pandas dataframe held by `dicom_dataframe` is modelled as the ordered
  list of its rows (the `DS` column) together with the list of populated
  non-`DS` column names; column values are recomputed from the immutable
  rows, which agrees with the source because rows are never mutated.
* `DataFrame.sort_values` (default `kind='quicksort'`) is modelled with a
  comparison sort on the same key; the model fixes a tie order that the
  library call leaves unspecified.
* `np.dstack` over the per-slice 2-D buffers is modelled as the ordered list
  of planes; it demands one common (rows, cols) shape, the `ValueError`
  raised by `np.concatenate` on mismatched shapes being `Err.shapeMismatch`.
-/

attribute [local semireducible] Rat.mul Rat.add Rat.sub

/-- A DICOM tag value: either a string-valued tag (UIDs, scan options) or a
numeric multi-value (direction cosines, positions). -/
inductive TagValue where
  | str : String → TagValue
  | nums : List ℚ → TagValue
deriving DecidableEq

/-- Error names from the design document, one per raise/crash site of the
source. -/
inductive Err where
  | missingOrientation
  | malformedOrientation
  | missingPosition
  | malformedPosition
  | missingScanOptions
  | emptyCollection
  | unknownTag
  | shapeMismatch
deriving DecidableEq

/-- Console warnings emitted by `dicom_dataframe.get_pixel_data`. -/
inductive Warning where
  | seriesUidMissing
  | multipleSeries
deriving DecidableEq

/-- A decoded DICOM slice: the metadata mapping together with the decoded
pixel buffer (`pydicom` exposes it as the 2-D `pixel_array`). -/
structure Dcm where
  tags : List (String × TagValue)
  pixelArray : List (List ℤ)
deriving DecidableEq

/-- `_get_tag_from_loaded_dicom`: looks a tag up in the loaded slice,
returning `none` (the source prints and returns `None`) when absent. -/
def getTagFromLoadedDicom (dcm : Dcm) (tag : String) : Option TagValue :=
  (dcm.tags.find? (fun p => p.1 == tag)).map Prod.snd

/-- `_get_normal_from_dicom_slice`: reads the 6 `ImageOrientationPatient`
cosines and returns the slice normal by the source's three component
formulas.  A missing tag makes the source crash (`None` is not iterable);
a string value or fewer than 6 cosines crash in the float conversion or the
indexing, modelled as the malformed-orientation error. -/
def getNormalFromDicomSlice (dcm : Dcm) : Except Err (Fin 3 → ℚ) :=
  match getTagFromLoadedDicom dcm "ImageOrientationPatient" with
  | none => .error .missingOrientation
  | some (.str _) => .error .malformedOrientation
  | some (.nums cs) =>
      if 6 ≤ cs.length then
        .ok ![cs.getD 1 0 * cs.getD 5 0 - cs.getD 2 0 * cs.getD 4 0,
              cs.getD 2 0 * cs.getD 3 0 - cs.getD 0 0 * cs.getD 5 0,
              cs.getD 0 0 * cs.getD 4 0 - cs.getD 1 0 * cs.getD 3 0]
      else .error .malformedOrientation

/-- `_get_dicom_slice_IPP_along_normal`: fetches `ImagePositionPatient`,
then the slice normal, and returns `np.inner(normal, IPP)`.  The source
fails on a missing or unusable position tag, on any normal failure, and in
`np.inner` when the position does not have exactly 3 components. -/
def getDicomSliceIppAlongNormal (dcm : Dcm) : Except Err ℚ :=
  match getTagFromLoadedDicom dcm "ImagePositionPatient" with
  | none => .error .missingPosition
  | some (.str _) => .error .malformedPosition
  | some (.nums ipp) =>
      match getNormalFromDicomSlice dcm with
      | .error e => .error e
      | .ok n =>
          if ipp.length = 3 then
            .ok (n 0 * ipp.getD 0 0 + n 1 * ipp.getD 1 0 + n 2 * ipp.getD 2 0)
          else .error .malformedPosition

/-- The sort key used by `sort_dataframe_by_IPP_normal`, defaulted to `0`
on slices where the position along the normal is undefined (the sort is
only reached after every slice's key computed successfully). -/
def ippKey (d : Dcm) : ℚ :=
  match getDicomSliceIppAlongNormal d with
  | .ok q => q
  | .error _ => 0

/-- Whether the position along the normal is defined for a slice. -/
def keyDefined (d : Dcm) : Bool :=
  match getDicomSliceIppAlongNormal d with
  | .ok _ => true
  | .error _ => false

/-- The error, if any, raised when computing a slice's position along the
normal. -/
def errOf (d : Dcm) : Option Err :=
  match getDicomSliceIppAlongNormal d with
  | .ok _ => none
  | .error e => some e

/-- Python's substring test `sub in s`. -/
def pyIn (sub s : String) : Bool :=
  decide (sub.data <:+: s.data)

/-- Python's per-character `str.lower()` (the tags and extensions in play
are ASCII). -/
def strLower (s : String) : String :=
  ⟨s.data.map Char.toLower⟩

/-- Python's builtin `round` on a rational: round half to even. -/
def pyRound (q : ℚ) : ℤ :=
  if 2 * (q - (Rat.floor q : ℚ)) < 1 then Rat.floor q
  else if 1 < 2 * (q - (Rat.floor q : ℚ)) then Rat.floor q + 1
  else if Rat.floor q % 2 = 0 then Rat.floor q else Rat.floor q + 1

/-- `get_plane`: rounds the 6 orientation cosines, crosses the two rounded
3-vectors (the inlined `np.cross` formula), takes componentwise absolute
values and classifies sagittal / coronal / axial / oblique in that priority
order.  Raises (`KeyError`) when the orientation attribute is absent. -/
def getPlane (dcm : Dcm) : Except Err String :=
  match getTagFromLoadedDicom dcm "ImageOrientationPatient" with
  | none => .error .missingOrientation
  | some (.str _) => .error .malformedOrientation
  | some (.nums iop) =>
      if 6 ≤ iop.length then
        if ((iop.map pyRound).getD 1 0 * (iop.map pyRound).getD 5 0 -
            (iop.map pyRound).getD 2 0 * (iop.map pyRound).getD 4 0).natAbs = 1 then
          .ok "sagittal"
        else if ((iop.map pyRound).getD 2 0 * (iop.map pyRound).getD 3 0 -
            (iop.map pyRound).getD 0 0 * (iop.map pyRound).getD 5 0).natAbs = 1 then
          .ok "coronal"
        else if ((iop.map pyRound).getD 0 0 * (iop.map pyRound).getD 4 0 -
            (iop.map pyRound).getD 1 0 * (iop.map pyRound).getD 3 0).natAbs = 1 then
          .ok "axial"
        else
          .ok "Oblique acquisition (hope for the best)."
      else .error .malformedOrientation

/-- `is_fat_suppressed`: substring test `'FS' in ScanOptions`; raises
(`KeyError`) when the attribute is absent.  A non-string `ScanOptions`
makes Python's `in` fall back to element equality, which never matches the
string `"FS"`. -/
def isFatSuppressed (dcm : Dcm) : Except Err Bool :=
  match getTagFromLoadedDicom dcm "ScanOptions" with
  | none => .error .missingScanOptions
  | some (.str s) => .ok (pyIn "FS" s)
  | some (.nums _) => .ok false

/-- `path_to_dicom_dir` normalisation shared by `_get_dcm_paths_from_folderpath`
and `dicom_dataframe.__init__`: append a trailing slash when missing. -/
def dirSlash (p : String) : String :=
  if "/".data <:+ p.data then p else p ++ "/"

/-- `_get_dcm_paths_from_folderpath`: keep the directory entries whose
lowercased name contains the lowercased extension, and join them to the
directory path. -/
def getDcmPathsFromFolderpath (dirpath : String) (filenames : List String)
    (ext : String) : List String :=
  (filenames.filter (fun name => pyIn (strLower ext) (strLower name))).map
    (fun name => dirSlash dirpath ++ name)

/-- The assembler state: the `DS` column (held slices in order) and the
names of the populated metadata columns. -/
structure DicomDataframe where
  rows : List Dcm
  cols : List String
deriving DecidableEq

/-- Adding a dataframe column: a pandas column assignment creates the
column when absent and overwrites it in place when present. -/
def addCol (cols : List String) (c : String) : List String :=
  if c ∈ cols then cols else cols ++ [c]

/-- `dicom_dataframe.populate_dataframe`: one column per requested tag
(`_get_tag_from_loaded_dicom` never raises, so every tag gets a column,
missing values becoming `None`). -/
def populateDataframe (df : DicomDataframe) (tagsList : List String) : DicomDataframe :=
  { df with cols := tagsList.foldl addCol df.cols }

/-- `dicom_dataframe.__init__`: list the directory, keep the matching
names, fail on an empty match list, decode every matching file into the
`DS` column, and eagerly populate the two standard columns.  The directory
listing and the per-file decoding are I/O collaborators, passed as the
`filenames` and `dec` arguments. -/
def dicomDataframeInit (dirpath : String) (filenames : List String) (ext : String)
    (dec : String → Dcm) : Except Err DicomDataframe :=
  let paths := getDcmPathsFromFolderpath (dirSlash dirpath) filenames ext
  if paths.isEmpty then .error .emptyCollection
  else .ok (populateDataframe { rows := paths.map dec, cols := [] }
    ["SeriesInstanceUID", "ImagePositionPatient"])

/-- `dicom_dataframe.filter_dataframe_by_column_value`: on an unpopulated
column the source prints and then crashes on the unbound mask variable,
leaving the state unchanged; on a populated column it keeps, in order, the
rows whose column value equals `value` (pandas `==` masking: `None`
entries compare unequal). -/
def filterDataframeByColumnValue (df : DicomDataframe) (column : String)
    (value : TagValue) : Except Err DicomDataframe :=
  if column ∈ df.cols then
    .ok { df with
      rows := df.rows.filter (fun d => getTagFromLoadedDicom d column == some value) }
  else .error .unknownTag

/-- The comparison used to model `sort_values('ImagePositionPatient_normal')`. -/
def ippLe (a b : Dcm) : Prop :=
  ippKey a ≤ ippKey b

instance : DecidableRel ippLe :=
  fun a b => inferInstanceAs (Decidable (ippKey a ≤ ippKey b))

instance : IsTotal Dcm ippLe :=
  ⟨fun a b => le_total (ippKey a) (ippKey b)⟩

instance : IsTrans Dcm ippLe :=
  ⟨fun _ _ _ h h' => le_trans h h'⟩

/-- `dicom_dataframe.sort_dataframe_by_IPP_normal`: computing the key
column fails (and adds no column) as soon as one slice's key fails;
otherwise the rows are reordered ascending by key and the key column is
recorded. -/
def sortDataframeByIppNormal (df : DicomDataframe) : Except Err DicomDataframe :=
  match df.rows.findSome? errOf with
  | some e => .error e
  | none => .ok { rows := List.insertionSort ippLe df.rows,
                  cols := addCol df.cols "ImagePositionPatient_normal" }

/-- The (rows, row-lengths) shape of a decoded 2-D pixel buffer. -/
def pshape (p : List (List ℤ)) : ℕ × List ℕ :=
  (p.length, p.map List.length)

/-- Whether all held slices have pixel buffers of one common shape. -/
def allShapesEq (l : List Dcm) : Bool :=
  match l with
  | [] => true
  | d :: rest => rest.all (fun e => pshape e.pixelArray == pshape d.pixelArray)

/-- A volume as the ordered list of its 2-D planes (plane `i` of the
`np.dstack` result `V` is `V[:, :, i]`). -/
abbrev Volume := List (List (List ℤ))

/-- `np.dstack` over the list of per-slice planes: needs at least one
array, and `np.concatenate` under it raises `ValueError` unless all the
(rows, cols) shapes agree. -/
def dstack (planes : List (List (List ℤ))) : Except Err Volume :=
  match planes with
  | [] => .error .emptyCollection
  | p :: rest =>
      if rest.all (fun q => pshape q == pshape p) then .ok (p :: rest)
      else .error .shapeMismatch

/-- Adding the `PixelArray` column, the first mutation `get_pixel_data`
performs. -/
def addPixel (df : DicomDataframe) : DicomDataframe :=
  { df with cols := addCol df.cols "PixelArray" }

/-- The console warnings of `get_pixel_data`'s multi-slice branch: one
warning if the series column is absent, else one if it holds more than one
distinct value (`pandas.unique` over the column). -/
def seriesWarnings (df : DicomDataframe) : List Warning :=
  if "SeriesInstanceUID" ∈ df.cols then
    if 1 < ((df.rows.map (fun d => getTagFromLoadedDicom d "SeriesInstanceUID")).dedup).length
    then [.multipleSeries] else []
  else [.seriesUidMissing]

/-- `dicom_dataframe.get_pixel_data`: adds the `PixelArray` column, then,
when more than one slice is held, emits the series warnings and sorts by
position along the normal, and finally `np.dstack`s the (by then
reordered) pixel buffers.  The returned triple is the dataframe state
after the call (mutations before a raise persist), the emitted warnings,
and the result or error. -/
def getPixelData (df : DicomDataframe) : DicomDataframe × List Warning × Except Err Volume :=
  if 1 < df.rows.length then
    match sortDataframeByIppNormal (addPixel df) with
    | .error e => (addPixel df, seriesWarnings (addPixel df), .error e)
    | .ok df2 => (df2, seriesWarnings (addPixel df), dstack (df2.rows.map Dcm.pixelArray))
  else (addPixel df, [], dstack ((addPixel df).rows.map Dcm.pixelArray))

/-- Assembler states reachable from a given state by the public mutating
operations (`populate_tags`, successful `filter_by`, successful explicit
sorting, and the state left behind by `to_volume`). -/
inductive Reachable : DicomDataframe → DicomDataframe → Prop where
  | refl (df : DicomDataframe) : Reachable df df
  | populate {df df' : DicomDataframe} (ts : List String) (h : Reachable df df') :
      Reachable df (populateDataframe df' ts)
  | filter {df df' df'' : DicomDataframe} (c : String) (v : TagValue)
      (h : Reachable df df') (hf : filterDataframeByColumnValue df' c v = .ok df'') :
      Reachable df df''
  | sort {df df' df'' : DicomDataframe} (h : Reachable df df')
      (hs : sortDataframeByIppNormal df' = .ok df'') : Reachable df df''
  | pixel {df df' : DicomDataframe} (h : Reachable df df') :
      Reachable df (getPixelData df').1

instance {ε α : Type} [DecidableEq ε] [DecidableEq α] : DecidableEq (Except ε α)
  | .ok a, .ok b => if h : a = b then .isTrue (by rw [h]) else .isFalse (by simp [h])
  | .ok _, .error _ => .isFalse (by simp)
  | .error _, .ok _ => .isFalse (by simp)
  | .error a, .error b => if h : a = b then .isTrue (by rw [h]) else .isFalse (by simp [h])

/-- Sample slice: axial orientation, position 5 along the normal. -/
def dcmA : Dcm :=
  { tags := [("SeriesInstanceUID", .str "S1"),
             ("ImageOrientationPatient", .nums [1, 0, 0, 0, 1, 0]),
             ("ImagePositionPatient", .nums [0, 0, 5]),
             ("ScanOptions", .str "FS/SAT")],
    pixelArray := [[1]] }

/-- Sample slice: axial orientation, position 1 along the normal, same
pixel shape as `dcmA`. -/
def dcmB : Dcm :=
  { tags := [("SeriesInstanceUID", .str "S1"),
             ("ImageOrientationPatient", .nums [1, 0, 0, 0, 1, 0]),
             ("ImagePositionPatient", .nums [0, 0, 1]),
             ("ScanOptions", .str "SAT")],
    pixelArray := [[2]] }

/-- Sample slice: like `dcmB` but with a 2×1 pixel buffer. -/
def dcmC : Dcm :=
  { tags := [("SeriesInstanceUID", .str "S1"),
             ("ImageOrientationPatient", .nums [1, 0, 0, 0, 1, 0]),
             ("ImagePositionPatient", .nums [0, 0, 1])],
    pixelArray := [[2], [3]] }

/-- Sample slice with no metadata at all. -/
def dcmBare : Dcm :=
  { tags := [], pixelArray := [[0]] }

/-- Sample slice with the coronal orientation `[1,0,0,0,0,1]`. -/
def dcmCor : Dcm :=
  { tags := [("ImageOrientationPatient", .nums [1, 0, 0, 0, 0, 1])], pixelArray := [[0]] }

/-- Sample slice with the sagittal orientation `[0,1,0,0,0,1]`. -/
def dcmSag : Dcm :=
  { tags := [("ImageOrientationPatient", .nums [0, 1, 0, 0, 0, 1])], pixelArray := [[0]] }

/-- The plane classification as the design document words it: round the 6
cosines, cross the two rounded 3-vectors, take componentwise absolute
values, then test the components in the fixed priority order x (sagittal),
y (coronal), z (axial), with oblique as the fall-through. -/
def specClassify (iop : List ℚ) : String :=
  if ((crossProduct
        ![pyRound (iop.getD 0 0), pyRound (iop.getD 1 0), pyRound (iop.getD 2 0)]
        ![pyRound (iop.getD 3 0), pyRound (iop.getD 4 0), pyRound (iop.getD 5 0)]) 0).natAbs
      = 1 then "sagittal"
  else if ((crossProduct
        ![pyRound (iop.getD 0 0), pyRound (iop.getD 1 0), pyRound (iop.getD 2 0)]
        ![pyRound (iop.getD 3 0), pyRound (iop.getD 4 0), pyRound (iop.getD 5 0)]) 1).natAbs
      = 1 then "coronal"
  else if ((crossProduct
        ![pyRound (iop.getD 0 0), pyRound (iop.getD 1 0), pyRound (iop.getD 2 0)]
        ![pyRound (iop.getD 3 0), pyRound (iop.getD 4 0), pyRound (iop.getD 5 0)]) 2).natAbs
      = 1 then "axial"
  else "Oblique acquisition (hope for the best)."

/-- Sample assembler state holding `dcmA` then `dcmB` (equal shapes,
distinct positions, discovery order opposite to spatial order). -/
def dfAB : DicomDataframe :=
  { rows := [dcmA, dcmB], cols := ["SeriesInstanceUID", "ImagePositionPatient"] }

/-- Sample assembler state holding `dcmA` then `dcmC` (mismatched pixel
shapes). -/
def dfAC : DicomDataframe :=
  { rows := [dcmA, dcmC], cols := ["SeriesInstanceUID", "ImagePositionPatient"] }

/-- Sample assembler state holding the single slice `dcmA`, as produced by
loading a one-file directory. -/
def dfA1 : DicomDataframe :=
  { rows := [dcmA], cols := ["SeriesInstanceUID", "ImagePositionPatient"] }

/-- C3: for orientation cosines `[r0,r1,r2,c0,c1,c2]` the computed normal
is the cross product of the row vector and the column vector, and the
position along the normal is the dot product of the position with that
cross product; in particular orientation `[1,0,0,0,1,0]` yields the normal
`[0,0,1]`. -/
theorem normal_is_cross_and_ipp_is_dot :
    (∀ (dcm : Dcm) (r0 r1 r2 c0 c1 c2 p0 p1 p2 : ℚ),
      getTagFromLoadedDicom dcm "ImageOrientationPatient" =
          some (.nums [r0, r1, r2, c0, c1, c2]) →
      getTagFromLoadedDicom dcm "ImagePositionPatient" = some (.nums [p0, p1, p2]) →
      getNormalFromDicomSlice dcm = .ok (crossProduct ![r0, r1, r2] ![c0, c1, c2]) ∧
      getDicomSliceIppAlongNormal dcm =
        .ok (Matrix.dotProduct ![p0, p1, p2] (crossProduct ![r0, r1, r2] ![c0, c1, c2]))) ∧
    (∀ dcm : Dcm,
      getTagFromLoadedDicom dcm "ImageOrientationPatient" = some (.nums [1, 0, 0, 0, 1, 0]) →
      getNormalFromDicomSlice dcm = .ok ![0, 0, 1]) := by
  have key : ∀ (dcm : Dcm) (r0 r1 r2 c0 c1 c2 : ℚ),
      getTagFromLoadedDicom dcm "ImageOrientationPatient" =
          some (.nums [r0, r1, r2, c0, c1, c2]) →
      getNormalFromDicomSlice dcm = .ok (crossProduct ![r0, r1, r2] ![c0, c1, c2]) := by
    intro dcm r0 r1 r2 c0 c1 c2 hOri
    simp only [getNormalFromDicomSlice, hOri, List.length_cons, List.length_nil]
    rw [if_pos (by omega)]
    congr 1
  refine ⟨fun dcm r0 r1 r2 c0 c1 c2 p0 p1 p2 hOri hPos => ⟨key _ _ _ _ _ _ _ hOri, ?_⟩,
    fun dcm hOri => ?_⟩
  · simp only [getDicomSliceIppAlongNormal, hPos, key _ _ _ _ _ _ _ hOri]
    simp [Matrix.dotProduct, Fin.sum_univ_three, cross_apply,
      List.getD_cons_zero, List.getD_cons_succ]
    ring
  · rw [key _ _ _ _ _ _ _ hOri]
    congr 1

/-- Witness for C3 at the concrete axial slice `dcmA`. -/
theorem normal_is_cross_and_ipp_is_dot_witness :
    getNormalFromDicomSlice dcmA = .ok (crossProduct ![1, 0, 0] ![0, 1, 0]) ∧
    getDicomSliceIppAlongNormal dcmA =
      .ok (Matrix.dotProduct ![0, 0, 5] (crossProduct ![1, 0, 0] ![0, 1, 0])) :=
  normal_is_cross_and_ipp_is_dot.1 dcmA 1 0 0 0 1 0 0 0 5 (by decide) (by decide)

/-- C7: a slice without orientation metadata makes both the normal
computation and the plane classification fail with the missing-orientation
error; neither query returns any defaulted value. -/
theorem missing_orientation_fails :
    ∀ dcm : Dcm, getTagFromLoadedDicom dcm "ImageOrientationPatient" = none →
      getNormalFromDicomSlice dcm = .error .missingOrientation ∧
      getPlane dcm = .error .missingOrientation := by
  intro dcm h
  constructor
  · simp [getNormalFromDicomSlice, h]
  · simp [getPlane, h]

/-- Witness for C7 at the tag-less slice `dcmBare`. -/
theorem missing_orientation_fails_witness :
    getNormalFromDicomSlice dcmBare = .error .missingOrientation ∧
    getPlane dcmBare = .error .missingOrientation :=
  missing_orientation_fails dcmBare (by decide)

/-- C8: with a scan-options string the query returns true exactly when
`"FS"` occurs as a contiguous substring (`"FS/SAT"` yields true, `"SAT"`
false), and without scan-options metadata it fails with the
missing-scan-options error. -/
theorem fat_suppressed_iff_fs_substring :
    (∀ (dcm : Dcm) (s : String), getTagFromLoadedDicom dcm "ScanOptions" = some (.str s) →
      (isFatSuppressed dcm = .ok true ↔ "FS".data <:+: s.data)) ∧
    (∀ dcm : Dcm, getTagFromLoadedDicom dcm "ScanOptions" = none →
      isFatSuppressed dcm = .error .missingScanOptions) ∧
    isFatSuppressed dcmA = .ok true ∧ isFatSuppressed dcmB = .ok false := by
  refine ⟨fun dcm s h => ?_, fun dcm h => ?_, by decide, by decide⟩
  · simp [isFatSuppressed, h, pyIn]
  · simp [isFatSuppressed, h]

/-- Witness for C8 at the slice `dcmA`, whose scan options are `"FS/SAT"`. -/
theorem fat_suppressed_iff_fs_substring_witness :
    isFatSuppressed dcmA = .ok true :=
  (fat_suppressed_iff_fs_substring.1 dcmA "FS/SAT" (by decide)).mpr (by decide)

/-- `pyRound` returns a nearest integer: it never misses its argument by
more than one half. -/
lemma pyRound_nearest (q : ℚ) : |q - (pyRound q : ℚ)| ≤ 1 / 2 := by
  have hfl : Rat.floor q = ⌊q⌋ := (Rat.floor_def' q).trans Rat.floor_def.symm
  have h1 : ((⌊q⌋ : ℤ) : ℚ) ≤ q := Int.floor_le q
  have h2 : q < ⌊q⌋ + 1 := Int.lt_floor_add_one q
  unfold pyRound
  rw [hfl]
  split_ifs with ha hb hc <;> rw [abs_le] <;> constructor <;> push_cast <;>
    push_cast at h1 h2 ha <;> linarith

/-- C4: the classification rounds each of the 6 cosines to a nearest
integer, crosses the two rounded 3-vectors, takes componentwise absolute
values, and tests the components with the x-over-y-over-z priority;
`[1,0,0,0,1,0]` is axial, `[1,0,0,0,0,1]` coronal, `[0,1,0,0,0,1]`
sagittal. -/
theorem classify_plane_spec :
    (∀ q : ℚ, |q - (pyRound q : ℚ)| ≤ 1 / 2) ∧
    (∀ (dcm : Dcm) (iop : List ℚ),
      getTagFromLoadedDicom dcm "ImageOrientationPatient" = some (.nums iop) →
      6 ≤ iop.length → getPlane dcm = .ok (specClassify iop)) ∧
    getPlane dcmA = .ok "axial" ∧ getPlane dcmCor = .ok "coronal" ∧
    getPlane dcmSag = .ok "sagittal" := by
  refine ⟨pyRound_nearest, fun dcm iop hOri hLen => ?_, by decide, by decide, by decide⟩
  have hmap : ∀ i : ℕ, i < 6 → (iop.map pyRound).getD i 0 = pyRound (iop.getD i 0) := by
    intro i hi
    have hi' : i < iop.length := lt_of_lt_of_le hi hLen
    rw [List.getD_eq_getElem _ _ (by simpa using hi'), List.getD_eq_getElem _ _ hi',
      List.getElem_map]
  simp only [getPlane, hOri]
  rw [if_pos hLen, hmap 0 (by norm_num), hmap 1 (by norm_num), hmap 2 (by norm_num),
    hmap 3 (by norm_num), hmap 4 (by norm_num), hmap 5 (by norm_num)]
  simp only [specClassify, cross_apply, Matrix.cons_val_zero, Matrix.cons_val_one,
    Matrix.cons_val_two, Matrix.head_cons, Matrix.tail_cons]
  split_ifs <;> rfl

/-- Witness for C4: the general classification applied at the concrete
coronal slice `dcmCor`. -/
theorem classify_plane_spec_witness :
    getPlane dcmCor = .ok (specClassify [1, 0, 0, 0, 0, 1]) :=
  classify_plane_spec.2.1 dcmCor [1, 0, 0, 0, 0, 1] (by decide) (by norm_num)

/-- The trailing-slash normalisation really ends with a slash. -/
lemma dirSlash_slash (p : String) : "/".data <:+ (dirSlash p).data := by
  unfold dirSlash
  split_ifs with h
  · exact h
  · rw [String.data_append]
    exact List.suffix_append _ _

/-- Normalising a trailing slash twice is the same as doing it once (the
source normalises in `__init__` and again in the path helper). -/
lemma dirSlash_idem (p : String) : dirSlash (dirSlash p) = dirSlash p := by
  have h := dirSlash_slash p
  unfold dirSlash at h ⊢
  rw [if_pos h]

/-- C5: loading selects exactly the files whose lowercased name contains
the lowercased extension as a substring, and fails with the
empty-collection error precisely when no file matches. -/
theorem load_selects_matching_files :
    ∀ (dir : String) (files : List String) (ext : String) (dec : String → Dcm),
      (∀ n : String, pyIn (strLower ext) (strLower n) = true ↔
        (strLower ext).data <:+: (strLower n).data) ∧
      (dicomDataframeInit dir files ext dec = .error .emptyCollection ↔
        files.filter (fun n => pyIn (strLower ext) (strLower n)) = []) ∧
      (∀ df, dicomDataframeInit dir files ext dec = .ok df →
        df.rows = (files.filter (fun n => pyIn (strLower ext) (strLower n))).map
          (fun n => dec (dirSlash dir ++ n)) ∧
        df.cols = ["SeriesInstanceUID", "ImagePositionPatient"]) := by
  intro dir files ext dec
  have hpaths : getDcmPathsFromFolderpath (dirSlash dir) files ext =
      (files.filter (fun n => pyIn (strLower ext) (strLower n))).map
        (fun n => dirSlash dir ++ n) := by
    unfold getDcmPathsFromFolderpath
    rw [dirSlash_idem]
  refine ⟨fun n => by simp [pyIn], ?_, ?_⟩
  · simp only [dicomDataframeInit, hpaths]
    by_cases hE : files.filter (fun n => pyIn (strLower ext) (strLower n)) = []
    · simp [hE]
    · simp [hE]
  · intro df hdf
    simp only [dicomDataframeInit, hpaths] at hdf
    by_cases hE : files.filter (fun n => pyIn (strLower ext) (strLower n)) = []
    · simp [hE] at hdf
    · rw [if_neg (by simpa using hE)] at hdf
      cases hdf
      constructor
      · simp [populateDataframe, List.map_map]
      · rfl

/-- Witness for C5: a one-file directory whose single name matches the
extension case-insensitively. -/
theorem load_selects_matching_files_witness :
    dicomDataframeInit "d" ["IM001.DCM"] "dcm" (fun _ => dcmA) = .error .emptyCollection ↔
      (["IM001.DCM"].filter
        (fun n => pyIn (strLower "dcm") (strLower n))) = [] :=
  (load_selects_matching_files "d" ["IM001.DCM"] "dcm" (fun _ => dcmA)).2.1

/-- C6: filtering on a never-populated column fails with the unknown-tag
error and leaves no other outcome; filtering on a populated column keeps
exactly the slices whose tag equals the requested value, in their original
relative order (the surviving rows are a sublist). -/
theorem filter_by_spec :
    ∀ (df : DicomDataframe) (column : String) (value : TagValue),
      (column ∉ df.cols → filterDataframeByColumnValue df column value = .error .unknownTag) ∧
      (column ∈ df.cols → ∃ df', filterDataframeByColumnValue df column value = .ok df' ∧
        df'.cols = df.cols ∧ df'.rows.Sublist df.rows ∧
        (∀ d : Dcm, df'.rows.count d =
          if getTagFromLoadedDicom d column = some value then df.rows.count d else 0)) := by
  intro df column value
  constructor
  · intro h
    simp [filterDataframeByColumnValue, h]
  · intro h
    refine ⟨⟨df.rows.filter (fun d => getTagFromLoadedDicom d column == some value), df.cols⟩,
      by simp [filterDataframeByColumnValue, h], rfl, List.filter_sublist _, fun d => ?_⟩
    by_cases hd : getTagFromLoadedDicom d column = some value
    · rw [if_pos hd]
      exact List.count_filter (by simp [hd])
    · rw [if_neg hd]
      refine List.count_eq_zero.mpr (fun hmem => ?_)
      have := (List.mem_filter.mp hmem).2
      simp [hd] at this

/-- Witness for C6: filtering `dfAB` on its populated series column keeps
exactly the slices of series `"S1"`. -/
theorem filter_by_spec_witness :
    ∃ df', filterDataframeByColumnValue dfAB "SeriesInstanceUID" (.str "S1") = .ok df' ∧
      df'.cols = dfAB.cols ∧ df'.rows.Sublist dfAB.rows ∧
      (∀ d : Dcm, df'.rows.count d =
        if getTagFromLoadedDicom d "SeriesInstanceUID" = some (.str "S1") then
          dfAB.rows.count d else 0) :=
  (filter_by_spec dfAB "SeriesInstanceUID" (.str "S1")).2 (by decide)

/-- Membership in a column list survives adding a column. -/
lemma mem_addCol_of_mem {cols : List String} {c : String} (c' : String) (h : c ∈ cols) :
    c ∈ addCol cols c' := by
  unfold addCol
  split_ifs <;> simp [h]

/-- Membership in a column list survives populating any batch of tags. -/
lemma mem_foldl_addCol {cols : List String} {c : String} (ts : List String) (h : c ∈ cols) :
    c ∈ ts.foldl addCol cols := by
  induction ts generalizing cols with
  | nil => exact h
  | cons t ts ih => exact ih (mem_addCol_of_mem t h)

/-- A successful filter leaves the populated columns unchanged. -/
lemma filter_ok_cols {df df' : DicomDataframe} {c : String} {v : TagValue}
    (h : filterDataframeByColumnValue df c v = .ok df') : df'.cols = df.cols := by
  unfold filterDataframeByColumnValue at h
  split_ifs at h with hm
  cases h
  rfl

/-- A successful sort only adds the key column. -/
lemma sort_ok_cols {df df' : DicomDataframe}
    (h : sortDataframeByIppNormal df = .ok df') :
    df'.cols = addCol df.cols "ImagePositionPatient_normal" := by
  unfold sortDataframeByIppNormal at h
  cases hF : df.rows.findSome? errOf <;> rw [hF] at h
  · cases h
    rfl
  · exact absurd h (by simp)

/-- The state left behind by `get_pixel_data` keeps every populated column. -/
lemma getPixelData_cols_mem {df : DicomDataframe} {c : String} (h : c ∈ df.cols) :
    c ∈ (getPixelData df).1.cols := by
  unfold getPixelData
  split_ifs with hn
  · cases hS : sortDataframeByIppNormal (addPixel df) with
    | error e =>
        simp only [hS]
        exact mem_addCol_of_mem _ h
    | ok df2 =>
        simp only [hS]
        rw [sort_ok_cols hS]
        exact mem_addCol_of_mem _ (mem_addCol_of_mem _ h)
  · exact mem_addCol_of_mem _ h

/-- Populated columns are preserved by every reachable mutation. -/
lemma reachable_cols_mono {df df' : DicomDataframe} {c : String}
    (hr : Reachable df df') (hc : c ∈ df.cols) : c ∈ df'.cols := by
  induction hr with
  | refl => exact hc
  | populate ts h ih => exact mem_foldl_addCol ts ih
  | filter cN v h hf ih =>
      rw [filter_ok_cols hf]
      exact ih
  | sort h hs ih =>
      rw [sort_ok_cols hs]
      exact mem_addCol_of_mem _ ih
  | pixel h ih => exact getPixelData_cols_mem ih

/-- Filtering on a populated column never raises the unknown-tag error. -/
lemma filter_populated_ne_unknown {df : DicomDataframe} {c : String} (h : c ∈ df.cols)
    (v : TagValue) : filterDataframeByColumnValue df c v ≠ .error .unknownTag := by
  unfold filterDataframeByColumnValue
  rw [if_pos h]
  simp

/-- When the series column is present the warnings never report it
missing. -/
lemma seriesWarnings_no_missing {df : DicomDataframe}
    (h : "SeriesInstanceUID" ∈ df.cols) :
    Warning.seriesUidMissing ∉ seriesWarnings df := by
  unfold seriesWarnings
  rw [if_pos h]
  split_ifs <;> simp

/-- `get_pixel_data` never reports the series column missing when it is
present. -/
lemma getPixelData_no_missing_warning {df : DicomDataframe}
    (h : "SeriesInstanceUID" ∈ df.cols) :
    Warning.seriesUidMissing ∉ (getPixelData df).2.1 := by
  unfold getPixelData
  split_ifs with hn
  · cases hS : sortDataframeByIppNormal (addPixel df) <;> simp only [hS] <;>
      exact seriesWarnings_no_missing (mem_addCol_of_mem _ h)
  · simp

/-- A successful load populates exactly the two standard columns. -/
lemma init_ok_cols {dir : String} {files : List String} {ext : String} {dec : String → Dcm}
    {df : DicomDataframe} (h : dicomDataframeInit dir files ext dec = .ok df) :
    df.cols = ["SeriesInstanceUID", "ImagePositionPatient"] := by
  simp only [dicomDataframeInit] at h
  split_ifs at h with hE
  cases h
  rfl

/-- C10: after a successful load, the series and position columns are
populated eagerly, so in every reachable assembler state filtering on
either column never fails with the unknown-tag error and the
series-uniformity check of `to_volume` never reports the column missing. -/
theorem standard_tags_always_populated :
    ∀ (dir : String) (files : List String) (ext : String) (dec : String → Dcm)
      (df df' : DicomDataframe),
      dicomDataframeInit dir files ext dec = .ok df →
      Reachable df df' →
      "SeriesInstanceUID" ∈ df'.cols ∧ "ImagePositionPatient" ∈ df'.cols ∧
      (∀ v, filterDataframeByColumnValue df' "SeriesInstanceUID" v ≠ .error .unknownTag) ∧
      (∀ v, filterDataframeByColumnValue df' "ImagePositionPatient" v ≠ .error .unknownTag) ∧
      Warning.seriesUidMissing ∉ (getPixelData df').2.1 := by
  intro dir files ext dec df df' hInit hr
  have hS : "SeriesInstanceUID" ∈ df'.cols := by
    refine reachable_cols_mono hr ?_
    rw [init_ok_cols hInit]
    simp
  have hI : "ImagePositionPatient" ∈ df'.cols := by
    refine reachable_cols_mono hr ?_
    rw [init_ok_cols hInit]
    simp
  exact ⟨hS, hI, filter_populated_ne_unknown hS, filter_populated_ne_unknown hI,
    getPixelData_no_missing_warning hS⟩

/-- Witness for C10 at a freshly loaded one-slice assembler. -/
theorem standard_tags_always_populated_witness :
    "SeriesInstanceUID" ∈ dfA1.cols ∧ "ImagePositionPatient" ∈ dfA1.cols ∧
    (∀ v, filterDataframeByColumnValue dfA1 "SeriesInstanceUID" v ≠ .error .unknownTag) ∧
    (∀ v, filterDataframeByColumnValue dfA1 "ImagePositionPatient" v ≠ .error .unknownTag) ∧
    Warning.seriesUidMissing ∉ (getPixelData dfA1).2.1 :=
  standard_tags_always_populated "d" ["IM001.DCM"] "dcm" (fun _ => dcmA) dfA1 dfA1
    (by decide) (.refl dfA1)

/-- A defined key contributes no error to the key column computation. -/
lemma errOf_eq_none {d : Dcm} (h : keyDefined d = true) : errOf d = none := by
  unfold keyDefined at h
  unfold errOf
  cases hE : getDicomSliceIppAlongNormal d with
  | error e =>
      rw [hE] at h
      simp at h
  | ok q => rfl

/-- When every held slice has a defined key, the sort succeeds and
reorders the rows with the modelled comparison sort. -/
lemma sortDataframeByIppNormal_ok {df : DicomDataframe}
    (h : ∀ d ∈ df.rows, keyDefined d = true) :
    sortDataframeByIppNormal df =
      .ok { rows := List.insertionSort ippLe df.rows,
            cols := addCol df.cols "ImagePositionPatient_normal" } := by
  unfold sortDataframeByIppNormal
  rw [List.findSome?_eq_none_iff.mpr (fun d hd => errOf_eq_none (h d hd))]

/-- The boolean shape check agrees with all-pairs shape equality. -/
lemma allShapesEq_iff {l : List Dcm} : allShapesEq l = true ↔
    ∀ a ∈ l, ∀ b ∈ l, pshape a.pixelArray = pshape b.pixelArray := by
  cases l with
  | nil => simp [allShapesEq]
  | cons d rest =>
      simp only [allShapesEq, List.all_eq_true, beq_iff_eq]
      constructor
      · intro h a ha b hb
        have key : ∀ x ∈ d :: rest, pshape x.pixelArray = pshape d.pixelArray := by
          intro x hx
          rcases List.mem_cons.mp hx with hx | hx
          · rw [hx]
          · exact h x hx
        rw [key a ha, key b hb]
      · intro h e he
        exact h e (List.mem_cons_of_mem _ he) d (List.mem_cons_self d rest)

/-- Stacking succeeds on a nonempty batch of equal-shape buffers and
returns them in order. -/
lemma dstack_ok {l : List Dcm} (hne : l ≠ [])
    (h : ∀ a ∈ l, ∀ b ∈ l, pshape a.pixelArray = pshape b.pixelArray) :
    dstack (l.map Dcm.pixelArray) = .ok (l.map Dcm.pixelArray) := by
  cases l with
  | nil => exact absurd rfl hne
  | cons d rest =>
      have hc : (rest.map Dcm.pixelArray).all
          (fun q => pshape q == pshape d.pixelArray) = true := by
        refine List.all_eq_true.mpr (fun q hq => ?_)
        rcases List.mem_map.mp hq with ⟨e, he, rfl⟩
        exact beq_iff_eq.mpr
          (h e (List.mem_cons_of_mem _ he) d (List.mem_cons_self d rest))
      simp only [List.map_cons, dstack]
      rw [if_pos hc]

/-- Stacking fails with the shape-mismatch error as soon as two buffers
have different shapes. -/
lemma dstack_error {l : List Dcm} {a b : Dcm} (ha : a ∈ l) (hb : b ∈ l)
    (hne : pshape a.pixelArray ≠ pshape b.pixelArray) :
    dstack (l.map Dcm.pixelArray) = .error .shapeMismatch := by
  cases l with
  | nil => simp at ha
  | cons d rest =>
      have hcn : ¬ ((rest.map Dcm.pixelArray).all
          (fun q => pshape q == pshape d.pixelArray) = true) := by
        intro hc
        have key : ∀ x ∈ d :: rest, pshape x.pixelArray = pshape d.pixelArray := by
          intro x hx
          rcases List.mem_cons.mp hx with hx | hx
          · rw [hx]
          · exact beq_iff_eq.mp
              (List.all_eq_true.mp hc x.pixelArray (List.mem_map_of_mem _ hx))
        exact hne ((key a ha).trans (key b hb).symm)
      simp only [List.map_cons, dstack]
      rw [if_neg hcn]

/-- A list with two distinct members has length at least two. -/
lemma one_lt_length_of_mem_ne {α : Type} {l : List α} {a b : α} (ha : a ∈ l) (hb : b ∈ l)
    (hab : a ≠ b) : 1 < l.length := by
  cases l with
  | nil => simp at ha
  | cons x rest =>
      cases rest with
      | nil =>
          have ha' := List.mem_singleton.mp ha
          have hb' := List.mem_singleton.mp hb
          exact absurd (ha'.trans hb'.symm) hab
      | cons y rest' =>
          simp only [List.length_cons]
          omega

/-- Adding a column makes it present. -/
lemma mem_addCol_self (cols : List String) (c : String) : c ∈ addCol cols c := by
  unfold addCol
  split_ifs with h
  · exact h
  · simp

/-- C2: with more than one held slice, pairwise distinct positions along
the normal and one common pixel shape, `to_volume` reorders the slices
into the strictly ascending position order and stacks their pixel buffers
along the new third axis in that order, so plane `i` of the volume is the
buffer of the slice with the `i`-th smallest position; with exactly one
held slice the sort is skipped and a single-plane volume is returned. -/
theorem to_volume_stacks_sorted :
    (∀ df : DicomDataframe, 1 < df.rows.length →
      (∀ d ∈ df.rows, keyDefined d = true) →
      (df.rows.map ippKey).Nodup →
      allShapesEq df.rows = true →
      ∃ rows' : List Dcm, rows'.Perm df.rows ∧
        rows'.Pairwise (fun a b => ippKey a < ippKey b) ∧
        (getPixelData df).1.rows = rows' ∧
        (getPixelData df).2.2 = .ok (rows'.map Dcm.pixelArray)) ∧
    (∀ (df : DicomDataframe) (d : Dcm), df.rows = [d] →
      (getPixelData df).1.rows = df.rows ∧
      (getPixelData df).2.2 = .ok [d.pixelArray]) := by
  constructor
  · intro df hN hKeys hNodup hShapes
    have hperm : (List.insertionSort ippLe df.rows).Perm df.rows :=
      List.perm_insertionSort ippLe df.rows
    have hsort : sortDataframeByIppNormal (addPixel df) =
        .ok { rows := List.insertionSort ippLe df.rows,
              cols := addCol (addPixel df).cols "ImagePositionPatient_normal" } :=
      sortDataframeByIppNormal_ok hKeys
    have hGPD : getPixelData df =
        ({ rows := List.insertionSort ippLe df.rows,
           cols := addCol (addPixel df).cols "ImagePositionPatient_normal" },
         seriesWarnings (addPixel df),
         dstack ((List.insertionSort ippLe df.rows).map Dcm.pixelArray)) := by
      unfold getPixelData
      rw [if_pos hN, hsort]
    refine ⟨List.insertionSort ippLe df.rows, hperm, ?_, by rw [hGPD], ?_⟩
    · have hsorted : (List.insertionSort ippLe df.rows).Pairwise ippLe :=
        List.sorted_insertionSort ippLe df.rows
      have hnd : ((List.insertionSort ippLe df.rows).map ippKey).Nodup :=
        (List.Perm.nodup_iff (hperm.map ippKey)).mpr hNodup
      have hne : (List.insertionSort ippLe df.rows).Pairwise
          (fun a b => ippKey a ≠ ippKey b) := List.pairwise_map.mp hnd
      exact (hsorted.and hne).imp (fun hab => lt_of_le_of_ne hab.1 hab.2)
    · rw [hGPD]
      have hne : List.insertionSort ippLe df.rows ≠ [] := by
        have hlen := hperm.length_eq
        intro hnil
        rw [hnil] at hlen
        simp at hlen
        omega
      exact dstack_ok hne (fun a ha b hb =>
        allShapesEq_iff.mp hShapes a (hperm.mem_iff.mp ha) b (hperm.mem_iff.mp hb))
  · intro df d hd
    have hlen : ¬ 1 < df.rows.length := by
      rw [hd]
      simp
    unfold getPixelData
    rw [if_neg hlen]
    refine ⟨rfl, ?_⟩
    show dstack (df.rows.map Dcm.pixelArray) = _
    rw [hd]
    rfl

/-- Witness for C2 at the two-slice assembler `dfAB`, held in reverse
spatial order. -/
theorem to_volume_stacks_sorted_witness :
    ∃ rows' : List Dcm, rows'.Perm dfAB.rows ∧
      rows'.Pairwise (fun a b => ippKey a < ippKey b) ∧
      (getPixelData dfAB).1.rows = rows' ∧
      (getPixelData dfAB).2.2 = .ok (rows'.map Dcm.pixelArray) :=
  to_volume_stacks_sorted.1 dfAB (by decide) (by decide) (by decide) (by decide)

/-- C9 (amended): two held slices of differing (rows, cols) pixel shapes
make `to_volume` fail with the shape-mismatch error, but the call is not
all-or-nothing: the pixel-array and normal-position columns have been
added and the rows re-sorted by position before the stacking step fails. -/
theorem to_volume_shape_mismatch :
    ∀ (df : DicomDataframe) (a b : Dcm), a ∈ df.rows → b ∈ df.rows →
      pshape a.pixelArray ≠ pshape b.pixelArray →
      (∀ d ∈ df.rows, keyDefined d = true) →
      (getPixelData df).2.2 = .error .shapeMismatch ∧
      "PixelArray" ∈ (getPixelData df).1.cols ∧
      "ImagePositionPatient_normal" ∈ (getPixelData df).1.cols ∧
      (getPixelData df).1.rows.Perm df.rows ∧
      (getPixelData df).1.rows.Pairwise ippLe := by
  intro df a b ha hb hab hKeys
  have hANe : a ≠ b := fun h => hab (by rw [h])
  have hN : 1 < df.rows.length := one_lt_length_of_mem_ne ha hb hANe
  have hperm : (List.insertionSort ippLe df.rows).Perm df.rows :=
    List.perm_insertionSort ippLe df.rows
  have hsort : sortDataframeByIppNormal (addPixel df) =
      .ok { rows := List.insertionSort ippLe df.rows,
            cols := addCol (addPixel df).cols "ImagePositionPatient_normal" } :=
    sortDataframeByIppNormal_ok hKeys
  have hGPD : getPixelData df =
      ({ rows := List.insertionSort ippLe df.rows,
         cols := addCol (addPixel df).cols "ImagePositionPatient_normal" },
       seriesWarnings (addPixel df),
       dstack ((List.insertionSort ippLe df.rows).map Dcm.pixelArray)) := by
    unfold getPixelData
    rw [if_pos hN, hsort]
  rw [hGPD]
  refine ⟨dstack_error (hperm.mem_iff.mpr ha) (hperm.mem_iff.mpr hb) hab,
    mem_addCol_of_mem _ (mem_addCol_self df.cols "PixelArray"),
    mem_addCol_self _ "ImagePositionPatient_normal", hperm,
    List.sorted_insertionSort ippLe df.rows⟩

/-- Witness for C9's amended statement at the concrete assembler `dfAC`. -/
theorem to_volume_shape_mismatch_witness :
    (getPixelData dfAC).2.2 = .error .shapeMismatch ∧
    "PixelArray" ∈ (getPixelData dfAC).1.cols ∧
    "ImagePositionPatient_normal" ∈ (getPixelData dfAC).1.cols ∧
    (getPixelData dfAC).1.rows.Perm dfAC.rows ∧
    (getPixelData dfAC).1.rows.Pairwise ippLe :=
  to_volume_shape_mismatch dfAC dcmA dcmC (by decide) (by decide) (by decide) (by decide)

/-- C9 counterexample: at `dfAC` — two held slices with 1×1 and 2×1 pixel
buffers — `to_volume` does fail with the shape-mismatch error, yet the
assembler state after the failed call differs from the state before it,
refuting the claimed all-or-nothing behaviour. -/
theorem to_volume_not_all_or_nothing :
    ¬ ((getPixelData dfAC).2.2 = .error .shapeMismatch ∧ (getPixelData dfAC).1 = dfAC) := by
  decide
